import Mathlib

/-!
# Verification of the `jsonparser` tokenizer and parser

This file gives a shallow embedding of the repository's source code and
settles the specification claims against it.

The repository's single lexer source file contains **two** lexer variants
(separated by a document marker): the first (`Lexer1` below) is the
rune-based lexer with line/column tracking, keyword lookahead and UTF-16
surrogate-pair handling; the second (`Lexer2` below) is the byte-based
lexer without position tracking.  The parser fragment (`parseObject` and
its callees) is embedded in the `JParser` namespace.

Go strings are modelled as lists of bytes (`List Nat`, each entry < 256);
all concrete inputs used below are ASCII, where byte positions and
character positions coincide.
-/

namespace JsonVerify

/-- Byte list of an ASCII string.  Every concrete input examined in this
file is ASCII, so this agrees with Go's UTF-8 byte representation. -/
def asciiBytes (s : String) : List Nat := s.toList.map Char.toNat

/-- Indexing into a byte list; out-of-range reads give 0, matching the
lexers' use of 0 as the end-of-input sentinel. -/
def byteAt : List Nat → Nat → Nat
  | [], _ => 0
  | b :: _, 0 => b
  | _ :: rest, i + 1 => byteAt rest i

/-- Token kinds, named after the Go constants.  Both lexer variants use a
subset of these (the second variant has no bracket tokens). -/
inductive TokenType where
  | TokenLeftBrace
  | TokenRightBrace
  | TokenLeftBracket
  | TokenRightBracket
  | TokenColon
  | TokenComma
  | TokenString
  | TokenNumber
  | TokenTrue
  | TokenFalse
  | TokenNull
  | TokenEOF
deriving DecidableEq, Repr

/-- Is a byte a UTF-8 continuation byte (`10xxxxxx`)? -/
def isContByte (b : Nat) : Bool := decide (0x80 ≤ b ∧ b < 0xC0)

/-- Decode a byte list as exactly one UTF-8 encoded code point
(with the standard overlong/surrogate/range checks). -/
def utf8DecodeOne : List Nat → Option Nat
  | [b] => if b < 0x80 then some b else none
  | [b1, b2] =>
    if 0xC2 ≤ b1 ∧ b1 ≤ 0xDF ∧ isContByte b2 then
      some ((b1 - 0xC0) * 0x40 + (b2 - 0x80))
    else none
  | [b1, b2, b3] =>
    if 0xE0 ≤ b1 ∧ b1 ≤ 0xEF ∧ isContByte b2 ∧ isContByte b3 then
      let r := (b1 - 0xE0) * 0x1000 + (b2 - 0x80) * 0x40 + (b3 - 0x80)
      if 0x800 ≤ r ∧ ¬(0xD800 ≤ r ∧ r ≤ 0xDFFF) then some r else none
    else none
  | [b1, b2, b3, b4] =>
    if 0xF0 ≤ b1 ∧ b1 ≤ 0xF4 ∧ isContByte b2 ∧ isContByte b3 ∧ isContByte b4 then
      let r := (b1 - 0xF0) * 0x40000 + (b2 - 0x80) * 0x1000 + (b3 - 0x80) * 0x40 + (b4 - 0x80)
      if 0x10000 ≤ r ∧ r ≤ 0x10FFFF then some r else none
    else none
  | _ => none

/-- Model of Go's `utf8.DecodeLastRuneInString` applied to a byte list:
decodes the **last** code point of the list, returning the code point and
its byte length; malformed input yields `(0xFFFD, 1)` and the empty list
yields `(0xFFFD, 0)`.  Only the single-byte (ASCII) path is exercised by
the inputs in this file. -/
def decodeLastRune (bs : List Nat) : Nat × Nat :=
  match bs.getLast? with
  | none => (0xFFFD, 0)
  | some b =>
    if b < 0x80 then (b, 1)
    else
      let k := ((bs.reverse.take 3).takeWhile isContByte).length + 1
      match utf8DecodeOne (bs.drop (bs.length - k)) with
      | some r => (r, k)
      | none => (0xFFFD, 1)

/-- UTF-8 encoding of a code point, as produced by Go's
`strings.Builder.WriteRune`. -/
def utf8Encode (r : Nat) : List Nat :=
  if r < 0x80 then [r]
  else if r < 0x800 then [0xC0 + r / 0x40, 0x80 + r % 0x40]
  else if r < 0x10000 then
    [0xE0 + r / 0x1000, 0x80 + r / 0x40 % 0x40, 0x80 + r % 0x40]
  else
    [0xF0 + r / 0x40000, 0x80 + r / 0x1000 % 0x40, 0x80 + r / 0x40 % 0x40, 0x80 + r % 0x40]

/-- Value of a single hexadecimal digit byte. -/
def hexDigitVal (c : Nat) : Nat :=
  if 48 ≤ c && c ≤ 57 then c - 48
  else if 97 ≤ c && c ≤ 102 then c - 87
  else if 65 ≤ c && c ≤ 70 then c - 55
  else 0

/-- Value of a string of hex digits, as produced by the lexers'
`fmt.Sscanf(hex, "%04x", &v)` on the four hex digits they collect. -/
def hexValue (ds : List Nat) : Nat := ds.foldl (fun a c => a * 16 + hexDigitVal c) 0

/-- `utf16.DecodeRune`: combine a UTF-16 surrogate pair into a code point;
any invalid pair yields the replacement character 0xFFFD
(= `utf8.RuneError`). -/
def utf16DecodeRune (hi lo : Nat) : Nat :=
  if 0xD800 ≤ hi ∧ hi ≤ 0xDBFF ∧ 0xDC00 ≤ lo ∧ lo ≤ 0xDFFF then
    0x10000 + (hi - 0xD800) * 0x400 + (lo - 0xDC00)
  else 0xFFFD

/-- `isHighSurrogate` from the first lexer variant. -/
def isHighSurrogate (r : Nat) : Bool := decide (0xD800 ≤ r ∧ r ≤ 0xDBFF)

/-- `isLowSurrogate` from the first lexer variant. -/
def isLowSurrogate (r : Nat) : Bool := decide (0xDC00 ≤ r ∧ r ≤ 0xDFFF)

namespace Lexer1

/-- First lexer variant: `Token` with decoded literal (bytes) and 1-based
position of — per the source — whatever `l.line`/`l.column` hold when the
token is constructed.  (The Go field `Type` is called `type` here, `Type`
being reserved in Lean.) -/
structure Token where
  type : TokenType
  Literal : List Nat
  Line : Nat
  Column : Nat
deriving DecidableEq, Repr

/-- First lexer variant: scanner state.  `ch` is the current rune
(code point), 0 at end of input. -/
structure Lexer where
  input : List Nat
  position : Nat
  readPosition : Nat
  ch : Nat
  line : Nat
  column : Nat
deriving DecidableEq, Repr

/-- `readChar` of the first variant, as written in the source: when in
bounds it decodes the **last** rune of `input[readPosition:]` (the source
calls `utf8.DecodeLastRuneInString`, not `DecodeRuneInString`), advances
`readPosition` by the rune size, sets `position`, bumps the column (or the
line on a newline) — and then unconditionally sets `position` again and
increments `readPosition` once more. -/
def readChar (l : Lexer) : Lexer :=
  if l.readPosition ≥ l.input.length then
    { l with ch := 0, position := l.readPosition, readPosition := l.readPosition + 1 }
  else
    let rs := decodeLastRune (l.input.drop l.readPosition)
    let rp := l.readPosition + rs.2
    { input := l.input
      ch := rs.1
      position := rp
      readPosition := rp + 1
      line := if rs.1 = 10 then l.line + 1 else l.line
      column := if rs.1 = 10 then 0 else l.column + 1 }

/-- `NewLexer`: line starts at 1, column at 0, then one `readChar`. -/
def NewLexer (input : List Nat) : Lexer :=
  readChar { input := input, position := 0, readPosition := 0, ch := 0, line := 1, column := 0 }

/-- Go's `unicode.IsSpace` restricted to Latin-1 (it additionally accepts
the Unicode Zs category above U+00FF, which no input in this file
contains). -/
def isSpaceGo (c : Nat) : Bool := decide (c = 32 ∨ (9 ≤ c ∧ c ≤ 13) ∨ c = 0x85 ∨ c = 0xA0)

/-- `skipWhitespace`: advance while the current rune is whitespace.  The
`fuel` argument bounds the loop; it is always instantiated large enough
that the loop runs to completion. -/
def skipWhitespace : Nat → Lexer → Lexer
  | 0, l => l
  | fuel + 1, l => if isSpaceGo l.ch then skipWhitespace fuel (readChar l) else l

/-- Go's `unicode.IsDigit` restricted to ASCII (it additionally accepts
Unicode Nd digits above U+00FF, which no input in this file contains). -/
def isDigitGo (c : Nat) : Bool := decide (48 ≤ c ∧ c ≤ 57)

/-- `isStartOfNumber`: a minus sign or a digit. -/
def isStartOfNumber (c : Nat) : Bool := c = 45 || isDigitGo c

/-- Hex-digit test applied to the current rune (the source passes the rune
`l.ch` to `isHexDigit(ch byte)`, which does not typecheck in Go; the test
itself is `0-9`, `a-f`, `A-F`). -/
def isHexDigitRune (c : Nat) : Bool :=
  decide ((48 ≤ c ∧ c ≤ 57) ∨ (97 ≤ c ∧ c ≤ 102) ∨ (65 ≤ c ∧ c ≤ 70))

/-- `peekKeyWord`: byte-compare `input[readPosition : readPosition+len]`
with the expected keyword. -/
def peekKeyWord (l : Lexer) (expected : List Nat) : Bool :=
  if l.readPosition + expected.length > l.input.length then false
  else (l.input.drop l.readPosition).take expected.length = expected

/-- `advanceBy n`: n calls to `readChar`. -/
def advanceBy : Nat → Lexer → Lexer
  | 0, l => l
  | n + 1, l => advanceBy n (readChar l)

/-- The three `readNumber` error messages of the first variant. -/
inductive NumError where
  | expectedDigitAfterMinus
  | expectedDigitAfterDot
  | expectedDigitAfterExponent
deriving DecidableEq, Repr

/-- Errors returned by the first variant's `Tokenize` and its callees.
Each constructor corresponds to one `fmt.Errorf` site and carries that
site's format arguments **in source order** (this matters for
`unexpectedCharacter`, whose source passes `(l.ch, l.line, l.column)` to a
format string reading `line %d, column %d: unexpected character: %c`).
`outOfFuel` is the sentinel for loop-fuel exhaustion and is never produced
when the fuel bounds below are respected. -/
inductive LexError where
  | invalidKeyword (line column : Nat) (start : Nat)
  | numberError (line column : Nat) (e : NumError)
  | unexpectedCharacter (lineArg columnArg : Nat) (charArg : Nat)
  | expectedBackslashAfterHighSurrogate (got : Nat)
  | expectedUAfterBackslash (got : Nat)
  | invalidLowSurrogate (v : Nat)
  | invalidSurrogatePair (hi lo : Nat)
  | unterminatedString
  | badEscapeChar (c : Nat)
  | invalidUnicodeEscape (hex : List Nat)
  | outOfFuel
deriving DecidableEq, Repr

/-- `consumeMinus`: skip a leading minus (the Go function also returns an
error value, but it is always nil). -/
def consumeMinus (l : Lexer) : Lexer := if l.ch = 45 then readChar l else l

/-- Digit-run loop shared by the fraction and exponent parts of
`readNumber`: append digits to the builder while the current rune is a
digit. -/
def readDigits : Nat → List Nat → Lexer → List Nat × Lexer
  | 0, acc, l => (acc, l)
  | fuel + 1, acc, l =>
    if isDigitGo l.ch then readDigits fuel (acc ++ [l.ch]) (readChar l) else (acc, l)

/-- `readNumber` of the first variant, as written in the source.  Note two
source peculiarities embedded faithfully: the builder `numBuilder` is used
but never declared (the Go file does not compile; it is modelled as a
builder that starts empty), and the integer digits are checked for but
never consumed nor appended — after the digit check the code goes straight
to the fraction and exponent parts.  The second minus check is dead code
(`consumeMinus` already consumed any minus).  Returns the (possibly
partial) builder or an error, together with the final scanner state. -/
def readNumber (fuel : Nat) (l0 : Lexer) : Except NumError (List Nat) × Lexer :=
  let l := consumeMinus l0
  let p1 : List Nat × Lexer := if l.ch = 45 then ([45], readChar l) else ([], l)
  let acc := p1.1
  let l := p1.2
  if ¬ isDigitGo l.ch then (.error .expectedDigitAfterMinus, l)
  else
    let p2 : Except NumError (List Nat × Lexer) :=
      if l.ch = 46 then
        let acc := acc ++ [46]
        let l := readChar l
        if ¬ isDigitGo l.ch then .error .expectedDigitAfterDot
        else .ok (readDigits fuel acc l)
      else .ok (acc, l)
    match p2 with
    | .error e => (.error e, l)
    | .ok (acc, l) =>
      if l.ch = 101 ∨ l.ch = 69 then
        let acc := acc ++ [l.ch]
        let l := readChar l
        let p3 : List Nat × Lexer :=
          if l.ch = 43 ∨ l.ch = 45 then (acc ++ [l.ch], readChar l) else (acc, l)
        let acc := p3.1
        let l := p3.2
        if ¬ isDigitGo l.ch then (.error .expectedDigitAfterExponent, l)
        else
          let p4 := readDigits fuel acc l
          (.ok p4.1, p4.2)
      else (.ok acc, l)

/-- Inner loop of the first variant's `readUnicode`: four iterations, each
checking that the **current** rune is a hex digit before appending it and
advancing (so the escape letter `u` itself is the first rune examined —
see `readString` below). -/
def readUnicodeGo : Nat → List Nat → Lexer → Except LexError (Nat × Lexer)
  | 0, hex, l => .ok (hexValue hex, l)
  | i + 1, hex, l =>
    if ¬ isHexDigitRune l.ch then .error (.invalidUnicodeEscape hex)
    else readUnicodeGo i (hex ++ [l.ch]) (readChar l)

/-- `readUnicode` of the first variant: collect four hex digits starting
at the current rune and parse them with `Sscanf "%04x"` (which always
succeeds on four hex digits, so the scan-error branch is unreachable). -/
def readUnicode (l : Lexer) : Except LexError (Nat × Lexer) := readUnicodeGo 4 [] l

/-- Loop body of the first variant's `readString`, entered after the
opening quote has been consumed.  The builder is the list of decoded
bytes; `WriteRune` appends the UTF-8 encoding of a code point.  In the
default case the source calls `WriteByte(l.ch)` on a rune (which does not
typecheck in Go); it is modelled as writing the code point. -/
def readStringLoop : Nat → List Nat → Lexer → Except LexError (List Nat × Lexer)
  | 0, _, _ => .error .outOfFuel
  | fuel + 1, acc, l =>
    if l.ch = 34 then .ok (acc, readChar l)
    else if l.ch = 92 then
      let l := readChar l
      let res : Except LexError (List Nat × Lexer) :=
        if l.ch = 34 then .ok (acc ++ [34], l)
        else if l.ch = 92 then .ok (acc ++ [92], l)
        else if l.ch = 47 then .ok (acc ++ [47], l)
        else if l.ch = 98 then .ok (acc ++ [8], l)
        else if l.ch = 102 then .ok (acc ++ [12], l)
        else if l.ch = 110 then .ok (acc ++ [10], l)
        else if l.ch = 114 then .ok (acc ++ [13], l)
        else if l.ch = 116 then .ok (acc ++ [9], l)
        else if l.ch = 117 then
          match readUnicode l with
          | .error e => .error e
          | .ok (rv, l) =>
            if isHighSurrogate rv then
              if l.ch ≠ 92 then .error (.expectedBackslashAfterHighSurrogate l.ch)
              else
                let l := readChar l
                if l.ch ≠ 117 then .error (.expectedUAfterBackslash l.ch)
                else
                  let l := readChar l
                  match readUnicode l with
                  | .error e => .error e
                  | .ok (lo, l) =>
                    if ¬ isLowSurrogate lo then .error (.invalidLowSurrogate lo)
                    else
                      let cr := utf16DecodeRune rv lo
                      if cr = 0xFFFD then .error (.invalidSurrogatePair rv lo)
                      else .ok (acc ++ utf8Encode cr, l)
            else .ok (acc ++ utf8Encode rv, l)
        else .error (.badEscapeChar l.ch)
      match res with
      | .error e => .error e
      | .ok (acc, l) => readStringLoop fuel acc (readChar l)
    else if l.ch = 0 then .error .unterminatedString
    else readStringLoop fuel (acc ++ [l.ch]) (readChar l)

/-- `readString` of the first variant: consume the opening quote, then run
the loop. -/
def readString (fuel : Nat) (l : Lexer) : Except LexError (List Nat × Lexer) :=
  readStringLoop fuel [] (readChar l)

/-- Main loop of the first variant's `Tokenize`.  The loop tests `ch ≠ 0`
**before** skipping whitespace, the switch has no end-of-input case, and
the string case appends and `continue`s without the trailing `readChar`. -/
def TokenizeLoop : Nat → List Token → Lexer → Except LexError (List Token)
  | 0, _, _ => .error .outOfFuel
  | fuel + 1, toks, l0 =>
    if l0.ch = 0 then .ok (toks ++ [⟨.TokenEOF, [], l0.line, l0.column⟩])
    else
      let l := skipWhitespace (l0.input.length + 2) l0
      if l.ch = 123 then
        TokenizeLoop fuel (toks ++ [⟨.TokenLeftBrace, [123], l.line, l.column⟩]) (readChar l)
      else if l.ch = 125 then
        TokenizeLoop fuel (toks ++ [⟨.TokenRightBrace, [125], l.line, l.column⟩]) (readChar l)
      else if l.ch = 91 then
        TokenizeLoop fuel (toks ++ [⟨.TokenLeftBracket, [91], l.line, l.column⟩]) (readChar l)
      else if l.ch = 93 then
        TokenizeLoop fuel (toks ++ [⟨.TokenRightBracket, [93], l.line, l.column⟩]) (readChar l)
      else if l.ch = 58 then
        TokenizeLoop fuel (toks ++ [⟨.TokenColon, [58], l.line, l.column⟩]) (readChar l)
      else if l.ch = 44 then
        TokenizeLoop fuel (toks ++ [⟨.TokenComma, [44], l.line, l.column⟩]) (readChar l)
      else if l.ch = 34 then
        match readString (l.input.length + 2) l with
        | .error e => .error e
        | .ok (s, l2) =>
          TokenizeLoop fuel (toks ++ [⟨.TokenString, s, l2.line, l2.column⟩]) l2
      else if l.ch = 116 then
        if peekKeyWord l (asciiBytes "true") then
          let tok : Token := ⟨.TokenTrue, asciiBytes "true", l.line, l.column⟩
          TokenizeLoop fuel (toks ++ [tok]) (readChar (advanceBy 4 l))
        else .error (.invalidKeyword l.line l.column 116)
      else if l.ch = 102 then
        if peekKeyWord l (asciiBytes "false") then
          let tok : Token := ⟨.TokenFalse, asciiBytes "false", l.line, l.column⟩
          TokenizeLoop fuel (toks ++ [tok]) (readChar (advanceBy 5 l))
        else .error (.invalidKeyword l.line l.column 102)
      else if l.ch = 110 then
        if peekKeyWord l (asciiBytes "null") then
          let tok : Token := ⟨.TokenNull, asciiBytes "null", l.line, l.column⟩
          TokenizeLoop fuel (toks ++ [tok]) (readChar (advanceBy 4 l))
        else .error (.invalidKeyword l.line l.column 110)
      else if isStartOfNumber l.ch then
        match readNumber (l.input.length + 2) l with
        | (.error e, l2) => .error (.numberError l2.line l2.column e)
        | (.ok num, l2) =>
          TokenizeLoop fuel (toks ++ [⟨.TokenNumber, num, l2.line, l2.column⟩]) (readChar l2)
      else .error (.unexpectedCharacter l.ch l.line l.column)

/-- `Tokenize` of the first lexer variant. -/
def Tokenize (input : List Nat) : Except LexError (List Token) :=
  TokenizeLoop (input.length + 4) [] (NewLexer input)

end Lexer1

namespace Lexer2

/-- Second lexer variant: `Token` with a kind and a literal (bytes); no
position fields.  (The Go field `Type` is called `type` here.) -/
structure Tok where
  type : TokenType
  Literal : List Nat
deriving DecidableEq, Repr

/-- Second lexer variant: scanner state over bytes; `ch` is the current
byte, 0 at end of input. -/
structure Lexer where
  input : List Nat
  position : Nat
  readPosition : Nat
  ch : Nat
deriving DecidableEq, Repr

/-- `readChar` of the second variant: plain byte-at-a-time advance. -/
def readChar (l : Lexer) : Lexer :=
  { l with
    ch := if l.readPosition ≥ l.input.length then 0 else byteAt l.input l.readPosition
    position := l.readPosition
    readPosition := l.readPosition + 1 }

/-- `NewLexer` of the second variant. -/
def NewLexer (input : List Nat) : Lexer :=
  readChar { input := input, position := 0, readPosition := 0, ch := 0 }

/-- `isWhiteSpace`: space, tab, newline, carriage return. -/
def isWhiteSpace (c : Nat) : Bool := decide (c = 32 ∨ c = 9 ∨ c = 10 ∨ c = 13)

/-- `skipWhiteSpace` of the second variant. -/
def skipWhiteSpace : Nat → Lexer → Lexer
  | 0, l => l
  | fuel + 1, l => if isWhiteSpace l.ch then skipWhiteSpace fuel (readChar l) else l

/-- `isLetter`: ASCII letters and underscore. -/
def isLetter (c : Nat) : Bool := decide ((97 ≤ c ∧ c ≤ 122) ∨ (65 ≤ c ∧ c ≤ 90) ∨ c = 95)

/-- `isDigit`: ASCII digits. -/
def isDigit (c : Nat) : Bool := decide (48 ≤ c ∧ c ≤ 57)

/-- `isHexDigit` of the second variant. -/
def isHexDigit (c : Nat) : Bool :=
  decide ((48 ≤ c ∧ c ≤ 57) ∨ (97 ≤ c ∧ c ≤ 102) ∨ (65 ≤ c ∧ c ≤ 70))

/-- Errors of the second variant.  `unexpectedCharacter` models
`NewUnexpectedCharacterError(l.ch)` (the constructor lives in an errors
package outside `src/`; per the source it carries the current byte).
`outOfFuel` is the loop-fuel sentinel, never produced with the bounds
used below. -/
inductive LexError2 where
  | unexpectedCharacter (ch : Nat)
  | invalidUnicodeEscape
  | unterminatedString
  | outOfFuel
deriving DecidableEq, Repr

/-- Inner loop of the second variant's `readUnicode`: four iterations,
each **first** advancing and then checking the new byte is a hex digit. -/
def readUnicodeGo : Nat → List Nat → Lexer → Except LexError2 (Nat × Lexer)
  | 0, hex, l => .ok (hexValue hex, l)
  | i + 1, hex, l =>
    let l := readChar l
    if ¬ isHexDigit l.ch then .error .invalidUnicodeEscape
    else readUnicodeGo i (hex ++ [l.ch]) l

/-- `readUnicode` of the second variant: read four hex digits and parse
them with `Sscanf "%04x"` (always succeeds on four hex digits, so the
scan-error branch is unreachable). -/
def readUnicode (l : Lexer) : Except LexError2 (Nat × Lexer) := readUnicodeGo 4 [] l

/-- Loop body of the second variant's `readString`.  In the `\u` case the
source writes `strBuilder.WriteByte(byte(unicodeChar))`: only the
low-order byte of the decoded code point is appended, with no
surrogate-pair handling. -/
def readStringLoop : Nat → List Nat → Lexer → Except LexError2 (List Nat × Lexer)
  | 0, _, _ => .error .outOfFuel
  | fuel + 1, acc, l =>
    if l.ch = 34 then .ok (acc, readChar l)
    else if l.ch = 92 then
      let l := readChar l
      let res : Except LexError2 (List Nat × Lexer) :=
        if l.ch = 34 then .ok (acc ++ [34], l)
        else if l.ch = 92 then .ok (acc ++ [92], l)
        else if l.ch = 47 then .ok (acc ++ [47], l)
        else if l.ch = 98 then .ok (acc ++ [8], l)
        else if l.ch = 102 then .ok (acc ++ [12], l)
        else if l.ch = 110 then .ok (acc ++ [10], l)
        else if l.ch = 114 then .ok (acc ++ [13], l)
        else if l.ch = 116 then .ok (acc ++ [9], l)
        else if l.ch = 117 then
          match readUnicode l with
          | .error e => .error e
          | .ok (v, l) => .ok (acc ++ [v % 256], l)
        else .error (.unexpectedCharacter l.ch)
      match res with
      | .error e => .error e
      | .ok (acc, l) => readStringLoop fuel acc (readChar l)
    else if l.ch = 0 then .error .unterminatedString
    else readStringLoop fuel (acc ++ [l.ch]) (readChar l)

/-- `readString` of the second variant. -/
def readString (fuel : Nat) (l : Lexer) : Except LexError2 (List Nat × Lexer) :=
  readStringLoop fuel [] (readChar l)

/-- Letter/digit-run advance used by `readLiteral`. -/
def advanceLetters : Nat → Lexer → Lexer
  | 0, l => l
  | fuel + 1, l =>
    if isLetter l.ch || isDigit l.ch then advanceLetters fuel (readChar l) else l

/-- `readLiteral`: slice of the input from the starting position to the
position after the letter/digit run. -/
def readLiteral (fuel : Nat) (l : Lexer) : List Nat × Lexer :=
  let start := l.position
  let l2 := advanceLetters fuel l
  ((l.input.drop start).take (l2.position - start), l2)

/-- Digit-run advance used by `readNumber`. -/
def advanceDigits : Nat → Lexer → Lexer
  | 0, l => l
  | fuel + 1, l => if isDigit l.ch then advanceDigits fuel (readChar l) else l

/-- `readNumber` of the second variant: optional minus, digit run,
optional `.` plus digit run; the result is the **source slice** from the
start position.  There is no validation (a bare minus or a trailing `.`
is returned as-is) and no exponent handling. -/
def readNumber (fuel : Nat) (l : Lexer) : List Nat × Lexer :=
  let start := l.position
  let l := if l.ch = 45 then readChar l else l
  let l := advanceDigits fuel l
  let l := if l.ch = 46 then advanceDigits fuel (readChar l) else l
  ((l.input.drop start).take (l.position - start), l)

/-- Main loop of the second variant's `Tokenize`: skip whitespace first,
then dispatch; punctuation is `{ } : ,` only (no brackets), `"` starts a
string (append and continue without the trailing `readChar`), byte 0
emits the EOF token and returns, a letter run must be exactly `true`,
`false` or `null`, and a digit or minus starts a number. -/
def TokenizeLoop : Nat → List Tok → Lexer → Except LexError2 (List Tok)
  | 0, _, _ => .error .outOfFuel
  | fuel + 1, toks, l0 =>
    let l := skipWhiteSpace (l0.input.length + 2) l0
    if l.ch = 123 then TokenizeLoop fuel (toks ++ [⟨.TokenLeftBrace, [123]⟩]) (readChar l)
    else if l.ch = 125 then TokenizeLoop fuel (toks ++ [⟨.TokenRightBrace, [125]⟩]) (readChar l)
    else if l.ch = 58 then TokenizeLoop fuel (toks ++ [⟨.TokenColon, [58]⟩]) (readChar l)
    else if l.ch = 44 then TokenizeLoop fuel (toks ++ [⟨.TokenComma, [44]⟩]) (readChar l)
    else if l.ch = 34 then
      match readString (l.input.length + 2) l with
      | .error e => .error e
      | .ok (s, l2) => TokenizeLoop fuel (toks ++ [⟨.TokenString, s⟩]) l2
    else if l.ch = 0 then .ok (toks ++ [⟨.TokenEOF, []⟩])
    else if isLetter l.ch then
      let p := readLiteral (l.input.length + 2) l
      let lit := p.1
      let l2 := p.2
      if lit = asciiBytes "true" then
        TokenizeLoop fuel (toks ++ [⟨.TokenTrue, lit⟩]) (readChar l2)
      else if lit = asciiBytes "false" then
        TokenizeLoop fuel (toks ++ [⟨.TokenFalse, lit⟩]) (readChar l2)
      else if lit = asciiBytes "null" then
        TokenizeLoop fuel (toks ++ [⟨.TokenNull, lit⟩]) (readChar l2)
      else .error (.unexpectedCharacter l2.ch)
    else if isDigit l.ch || l.ch = 45 then
      let p := readNumber (l.input.length + 2) l
      TokenizeLoop fuel (toks ++ [⟨.TokenNumber, p.1⟩]) (readChar p.2)
    else .error (.unexpectedCharacter l.ch)

/-- `Tokenize` of the second lexer variant. -/
def Tokenize (input : List Nat) : Except LexError2 (List Tok) :=
  TokenizeLoop (input.length + 4) [] (NewLexer input)

end Lexer2

namespace JParser

/-- Modelled from the spec: the document-tree value model (`ast.Object`,
`ast.Value`, …) is not under `src/` (the parser fragment only references
it).  Per spec §3, a Value is a tagged union over Object (key → Value
mapping, insertion order preserved), Array, String, Number (stored
literal text), Boolean and Null.  Keys and literals are byte lists. -/
inductive Value where
  | object (pairs : List (List Nat × Value))
  | array (elems : List Value)
  | str (s : List Nat)
  | number (lit : List Nat)
  | boolean (b : Bool)
  | null

/-- Modelled from the spec: Go map assignment `obj.Pairs[key] = value`
(spec §3: "Duplicate keys in an object: last occurrence wins", insertion
order preserved) — replace the binding if the key is present, otherwise
append. -/
def insertPair : List (List Nat × Value) → List Nat → Value → List (List Nat × Value)
  | [], k, v => [(k, v)]
  | (k0, v0) :: rest, k, v =>
    if k0 = k then (k, v) :: rest else (k0, v0) :: insertPair rest k v

/-- Lookup of a key in an object's pair list (Go map read). -/
def lookupPairs : List (List Nat × Value) → List Nat → Option Value
  | [], _ => none
  | (k0, v0) :: rest, k => if k0 = k then some v0 else lookupPairs rest k

/-- The parser's cursor: token slice plus current index, as in the
source's `Parser` struct.  Tokens are the second variant's
position-free tokens (the parser only reads `Type` and `Literal`). -/
structure Parser where
  tokens : List Lexer2.Tok
  current : Nat
deriving DecidableEq, Repr

/-- Parser errors.  The source calls two constructors that live outside
`src/` (`errors.NewUnexpectedCharacterError(tok, expected)` and
`lexer.NewUnexpectedTokenError(tok, expected)`); both carry the found
token and the expected kind and are modelled by `unexpectedToken`.
`unexpectedValue` is the spec-modelled `parseValue` dispatch error
(spec §4.2: an error "naming the token found and the set of token kinds
that would have been acceptable").  `outOfFuel` is the recursion-fuel
sentinel, never produced with the bounds used below. -/
inductive ParseError where
  | unexpectedToken (found : Lexer2.Tok) (expected : TokenType)
  | unexpectedValue (found : Lexer2.Tok)
  | outOfFuel
deriving DecidableEq, Repr

/-- Modelled from the spec: `peek` is not under `src/`.  Per spec §4.2
(one-token lookahead: "the parser inspects the *upcoming* token … and
only consumes a token after it has been validated"), it returns the
current, not yet consumed token; an exhausted stream reads as the
end-of-input token. -/
def peek (p : Parser) : Lexer2.Tok :=
  match p.tokens.drop p.current with
  | [] => ⟨.TokenEOF, []⟩
  | t :: _ => t

/-- Modelled from the spec: `nextToken` is not under `src/`; it advances
the cursor by one token. -/
def nextToken (p : Parser) : Parser := { p with current := p.current + 1 }

/-- Modelled from the spec: `peekTypeIs` is not under `src/`; it tests
the kind of the current (upcoming) token. -/
def peekTypeIs (p : Parser) (t : TokenType) : Bool := (peek p).type = t

/-- Modelled from the spec: `expectCurrent` (spelled `expectedCurrent` at
one call site) is not under `src/`.  It validates the current token's
kind without consuming it — in `parseObject` each successful
`expectCurrent` is followed by an explicit `nextToken`, except the final
right-brace check, which the source never advances past. -/
def expectCurrent (p : Parser) (t : TokenType) : Bool := peekTypeIs p t

/-- Shared tail of `parseObject`: the code after the loop (reached both
when the loop condition fails and via `break`), which checks — but does
not consume — the closing right-brace. -/
def parseObjectFinish (pairs : List (List Nat × Value)) (p : Parser) :
    Except ParseError (Value × Parser) :=
  if ¬ expectCurrent p .TokenRightBrace then
    .error (.unexpectedToken (peek p) .TokenRightBrace)
  else .ok (.object pairs, p)

mutual

/-- Modelled from the spec: `parseValue` is not under `src/` (the
fragment only calls it).  Per spec §4.2 it dispatches on the current
token's kind: string/number/true/false/null become leaf values (cursor
advanced past the token), left-brace dispatches to `parseObject`,
left-bracket to `parseArray`, anything else is an unexpected-token
error. -/
def parseValue : Nat → Parser → Except ParseError (Value × Parser)
  | 0, _ => .error .outOfFuel
  | fuel + 1, p =>
    let t := peek p
    match t.type with
    | .TokenString => .ok (.str t.Literal, nextToken p)
    | .TokenNumber => .ok (.number t.Literal, nextToken p)
    | .TokenTrue => .ok (.boolean true, nextToken p)
    | .TokenFalse => .ok (.boolean false, nextToken p)
    | .TokenNull => .ok (.null, nextToken p)
    | .TokenLeftBrace => parseObject fuel p
    | .TokenLeftBracket => parseArray fuel p
    | _ => .error (.unexpectedValue t)

/-- `parseObject` from the source fragment: expect a left-brace, advance,
then run the key/value loop. -/
def parseObject : Nat → Parser → Except ParseError (Value × Parser)
  | 0, _ => .error .outOfFuel
  | fuel + 1, p =>
    if ¬ expectCurrent p .TokenLeftBrace then
      .error (.unexpectedToken (peek p) .TokenLeftBrace)
    else parseObjectLoop fuel [] (nextToken p)

/-- The `for` loop of `parseObject`, embedded faithfully: while the
upcoming token is neither right-brace nor EOF, read a string key, a
colon, a value (via `parseValue`), assign `obj.Pairs[key] = value`, and
continue only past a comma (otherwise `break`).  Both exits fall through
to `parseObjectFinish`. -/
def parseObjectLoop : Nat → List (List Nat × Value) → Parser →
    Except ParseError (Value × Parser)
  | 0, _, _ => .error .outOfFuel
  | fuel + 1, pairs, p =>
    if ¬ peekTypeIs p .TokenRightBrace ∧ ¬ peekTypeIs p .TokenEOF then
      let keyToken := peek p
      if keyToken.type ≠ .TokenString then
        .error (.unexpectedToken keyToken .TokenString)
      else
        let key := keyToken.Literal
        let p := nextToken p
        if ¬ expectCurrent p .TokenColon then
          .error (.unexpectedToken (peek p) .TokenColon)
        else
          let p := nextToken p
          match parseValue fuel p with
          | .error e => .error e
          | .ok (v, p) =>
            let pairs := insertPair pairs key v
            if peekTypeIs p .TokenComma then parseObjectLoop fuel pairs (nextToken p)
            else parseObjectFinish pairs p
    else parseObjectFinish pairs p

/-- Modelled from the spec: `parseArray` is not under `src/`.  Per spec
§4.2 it is symmetric to `parseObject` without keys: expect left-bracket,
parse values separated by commas (no trailing comma), expect and consume
the closing right-bracket. -/
def parseArray : Nat → Parser → Except ParseError (Value × Parser)
  | 0, _ => .error .outOfFuel
  | fuel + 1, p =>
    if ¬ expectCurrent p .TokenLeftBracket then
      .error (.unexpectedToken (peek p) .TokenLeftBracket)
    else
      let p := nextToken p
      if peekTypeIs p .TokenRightBracket then .ok (.array [], nextToken p)
      else parseArrayLoop fuel [] p

/-- Element loop of the spec-modelled `parseArray`. -/
def parseArrayLoop : Nat → List Value → Parser → Except ParseError (Value × Parser)
  | 0, _, _ => .error .outOfFuel
  | fuel + 1, elems, p =>
    match parseValue fuel p with
    | .error e => .error e
    | .ok (v, p) =>
      let elems := elems ++ [v]
      if peekTypeIs p .TokenComma then parseArrayLoop fuel elems (nextToken p)
      else if peekTypeIs p .TokenRightBracket then .ok (.array elems, nextToken p)
      else .error (.unexpectedToken (peek p) .TokenRightBracket)

end

end JParser

/-! ## Concrete token sequences used by the parser claims -/

/-- Token sequence of `{"a":1,"a":2}` (key "a" = byte 97, numbers as their
literal bytes), as the spec's token model produces for this input. -/
def dupKeyTokens : List Lexer2.Tok :=
  [⟨.TokenLeftBrace, [123]⟩, ⟨.TokenString, asciiBytes "a"⟩, ⟨.TokenColon, [58]⟩,
   ⟨.TokenNumber, asciiBytes "1"⟩, ⟨.TokenComma, [44]⟩, ⟨.TokenString, asciiBytes "a"⟩,
   ⟨.TokenColon, [58]⟩, ⟨.TokenNumber, asciiBytes "2"⟩, ⟨.TokenRightBrace, [125]⟩,
   ⟨.TokenEOF, []⟩]

/-- Token sequence of `{"a":1,}` — a comma directly followed by the
closing right-brace (trailing comma). -/
def trailingCommaTokens : List Lexer2.Tok :=
  [⟨.TokenLeftBrace, [123]⟩, ⟨.TokenString, asciiBytes "a"⟩, ⟨.TokenColon, [58]⟩,
   ⟨.TokenNumber, asciiBytes "1"⟩, ⟨.TokenComma, [44]⟩, ⟨.TokenRightBrace, [125]⟩,
   ⟨.TokenEOF, []⟩]

/-- A Go map assignment `Pairs[k] = v` makes `k` map to `v`, whatever was
bound before — the "last occurrence wins" mechanism of `parseObject`. -/
theorem lookupPairs_insertPair (ps : List (List Nat × JParser.Value)) (k : List Nat)
    (v : JParser.Value) : JParser.lookupPairs (JParser.insertPair ps k v) k = some v := by
  induction ps with
  | nil => simp [JParser.insertPair, JParser.lookupPairs]
  | cons hd tl ih =>
    by_cases h : hd.1 = k
    · simp [JParser.insertPair, JParser.lookupPairs, h]
    · simp [JParser.insertPair, JParser.lookupPairs, h, ih]

/-! ## Claim theorems -/

/-- C1: the claim says every number literal matching
`-? digit+ ('.' digit+)? ([eE] [+-]? digit+)?` is tokenized into a number
token carrying the decoded text.  The code refutes it: the first variant
tokenizes `123` into **two** number tokens with **empty** literals (its
`readNumber` checks for the first integer digit but never consumes or
appends the integer part, and its `readChar` decodes the last rune of the
remaining input), and the second variant has no exponent handling, so
`1e5` becomes the two tokens `1` and `5`. -/
theorem C1_number_literal_divergence :
    Lexer1.Tokenize (asciiBytes "123") =
      .ok [⟨.TokenNumber, [], 1, 1⟩, ⟨.TokenNumber, [], 1, 2⟩, ⟨.TokenEOF, [], 1, 2⟩] ∧
    Lexer2.Tokenize (asciiBytes "1e5") =
      .ok [⟨.TokenNumber, asciiBytes "1"⟩, ⟨.TokenNumber, asciiBytes "5"⟩, ⟨.TokenEOF, []⟩] := by
  exact ⟨rfl, rfl⟩

/-- C2: the claim says tokenizing `"\uD83D\uDE00"` yields a string token
whose literal is the single character U+1F600.  The code refutes it: the
first variant (which contains the surrogate-pair logic) returns an
unterminated-string error on this input (its `readChar` decodes the
**last** rune of the remaining input, so it only ever sees quotes), and
the second variant decodes the two escapes to their low-order bytes
`[0x3D, 0x00]` with no surrogate combination. -/
theorem C2_surrogate_pair_divergence :
    Lexer1.Tokenize (asciiBytes "\"\\uD83D\\uDE00\"") = .error .unterminatedString ∧
    Lexer2.Tokenize (asciiBytes "\"\\uD83D\\uDE00\"") =
      .ok [⟨.TokenString, [0x3D, 0x00]⟩, ⟨.TokenEOF, []⟩] := by
  exact ⟨rfl, rfl⟩

/-- C3: duplicate object keys — the last occurrence wins.  In general a
Go map assignment (`obj.Pairs[key] = value`, the source's line 40) makes
the key map to the newly assigned value, and concretely parsing the token
sequence of `{"a":1,"a":2}` succeeds with an object whose single binding
maps "a" to the number literal `2` (the final parser state rests on the
closing brace, which `parseObject` checks but never consumes). -/
theorem C3_duplicate_key_last_wins :
    (∀ (ps : List (List Nat × JParser.Value)) (k : List Nat) (v : JParser.Value),
      JParser.lookupPairs (JParser.insertPair ps k v) k = some v) ∧
    JParser.parseObject 20 ⟨dupKeyTokens, 0⟩ =
      .ok (.object [(asciiBytes "a", .number (asciiBytes "2"))], ⟨dupKeyTokens, 8⟩) ∧
    JParser.lookupPairs [(asciiBytes "a", JParser.Value.number (asciiBytes "2"))]
      (asciiBytes "a") = some (.number (asciiBytes "2")) := by
  exact ⟨lookupPairs_insertPair, rfl, rfl⟩

/-- C4: the claim says `parseObject` rejects a trailing comma
(`{"a":1,}`).  The code refutes it: after consuming the comma the loop
condition sees the right-brace and exits, and the final right-brace check
succeeds, so `parseObject` returns the object `{"a": 1}` with no error. -/
theorem C4_trailing_comma_accepted :
    JParser.parseObject 20 ⟨trailingCommaTokens, 0⟩ =
      .ok (.object [(asciiBytes "a", .number (asciiBytes "1"))], ⟨trailingCommaTokens, 5⟩) := by
  rfl

/-- C5: the claim says grammar-violating numbers (bare minus, trailing
decimal point, malformed exponent) are tokenize errors.  The second
variant refutes it: its `readNumber` performs no validation, so `-` is
returned as a number token with literal `-` and `1.` as a number token
with literal `1.`, both without error. -/
theorem C5_malformed_number_accepted :
    Lexer2.Tokenize (asciiBytes "-") =
      .ok [⟨.TokenNumber, asciiBytes "-"⟩, ⟨.TokenEOF, []⟩] ∧
    Lexer2.Tokenize (asciiBytes "1.") =
      .ok [⟨.TokenNumber, asciiBytes "1."⟩, ⟨.TokenEOF, []⟩] := by
  exact ⟨rfl, rfl⟩

/-- C6: the claim says a high-surrogate escape not followed by a valid
low surrogate is a tokenize error.  The first variant (the cited code)
refutes it: on `"\uD800"` its `readChar` only ever decodes the final
quote, so tokenization **succeeds**, producing two empty string tokens
and never reaching the surrogate validation. -/
theorem C6_unpaired_high_surrogate_accepted :
    Lexer1.Tokenize (asciiBytes "\"\\uD800\"") =
      .ok [⟨.TokenString, [], 1, 3⟩, ⟨.TokenString, [], 1, 4⟩, ⟨.TokenEOF, [], 1, 4⟩] := by
  rfl

/-- C7: the claim says whitespace padding never changes the result and
never causes an error.  The first variant refutes it: `1` tokenizes
successfully, but `1 ` (the same input padded with one trailing space)
is an error — the loop tests for end of input **before** skipping
whitespace and its switch has no end-of-input case, so the skip landing
on end of input falls into the unexpected-character branch. -/
theorem C7_trailing_whitespace_error :
    Lexer1.Tokenize (asciiBytes "1") =
      .ok [⟨.TokenNumber, [], 1, 1⟩, ⟨.TokenEOF, [], 1, 1⟩] ∧
    Lexer1.Tokenize (asciiBytes "1 ") = .error (.unexpectedCharacter 0 1 1) := by
  exact ⟨rfl, rfl⟩

/-- C8: the claim says any letter run starting with `t`, `f` or `n` that
is not exactly `true`, `false` or `null` is a tokenize error.  The first
variant refutes it: on `tatruet` its `readChar` yields the **last**
character `t`, and `peekKeyWord` then finds `true` at byte offset 2, so
the garbled input is silently accepted as the single keyword token
`true`. -/
theorem C8_garbled_keyword_accepted :
    Lexer1.Tokenize (asciiBytes "tatruet") =
      .ok [⟨.TokenTrue, asciiBytes "true", 1, 1⟩, ⟨.TokenEOF, [], 1, 4⟩] := by
  rfl

/-- C9: the claim says the unknown-character error correctly identifies
the offending character and its line/column.  The code refutes it: the
`fmt.Errorf` call passes `(l.ch, l.line, l.column)` to a format string
whose verbs are `line %d, column %d, … %c`, so for input `@` (at line 1,
column 1) the error reports line 64 (the character code of `@`), column
1 (the line), and character U+0001 (the column) — the constructor fields
record the three format arguments in source order. -/
theorem C9_unexpected_character_report_scrambled :
    Lexer1.Tokenize (asciiBytes "@") = .error (.unexpectedCharacter 64 1 1) ∧
    (64 : Nat) = ('@').toNat := by
  exact ⟨rfl, rfl⟩

/-- C10: in the second lexer variant, a string consisting of one `\uXXXX`
escape (any four hex digits) is decoded by writing **only the low-order
byte** of the parsed code point — the token literal is
`[value % 256]` — and whenever the value exceeds 0xFF this differs from
the value, i.e. the decoded character is silently truncated; no
surrogate-pair combination is performed. -/
theorem C10_unicode_escape_truncated (b1 b2 b3 b4 : Nat)
    (h1 : Lexer2.isHexDigit b1 = true) (h2 : Lexer2.isHexDigit b2 = true)
    (h3 : Lexer2.isHexDigit b3 = true) (h4 : Lexer2.isHexDigit b4 = true) :
    Lexer2.Tokenize [34, 92, 117, b1, b2, b3, b4, 34] =
      .ok [⟨.TokenString, [hexValue [b1, b2, b3, b4] % 256]⟩, ⟨.TokenEOF, []⟩] ∧
    (0xFF < hexValue [b1, b2, b3, b4] →
      hexValue [b1, b2, b3, b4] % 256 ≠ hexValue [b1, b2, b3, b4]) := by
  constructor
  · simp [Lexer2.Tokenize, Lexer2.TokenizeLoop, Lexer2.NewLexer, Lexer2.readChar,
      Lexer2.skipWhiteSpace, Lexer2.isWhiteSpace, Lexer2.readString, Lexer2.readStringLoop,
      Lexer2.readUnicode, Lexer2.readUnicodeGo, byteAt, h1, h2, h3, h4]
  · intro h
    omega

/-- Witness for C10 at the escape `Ā` (digits `0100`, value 0x0100 =
256 > 0xFF): the decoded literal is the single byte 0. -/
theorem C10_unicode_escape_truncated_witness :
    Lexer2.Tokenize [34, 92, 117, 48, 49, 48, 48, 34] =
      .ok [⟨.TokenString, [0]⟩, ⟨.TokenEOF, []⟩] ∧
    (0xFF : Nat) < hexValue [48, 49, 48, 48] := by
  have h := C10_unicode_escape_truncated 48 49 48 48 rfl rfl rfl rfl
  exact ⟨h.1, by decide⟩

end JsonVerify
